import Mathlib

/-!
Verification of the nbmarch retrieval/validation core against its
natural-language specification.

The Rust sources are shallowly embedded:

* `chrono::NaiveDateTime` becomes the `NaiveDateTime` structure below; a value
  built by `chrono` is always calendar-valid, which the embedding captures with
  the decidable `NaiveDateTime.isValid`.  Chronological comparison of valid
  datetimes equals lexicographic comparison of the components, which the
  embedding realises through the order-preserving mixed-radix linearisation
  `NaiveDateTime.lin`.
* `chrono::Duration` subtraction is only ever used with a small nonnegative
  number of hours; `NaiveDateTime.subHours` walks the proleptic Gregorian
  calendar backwards one hour at a time, which is chrono's semantics on valid
  datetimes.
* Fallible Rust code (`Result`) becomes `Except`; external collaborators
  (the filedb cache, the HTTP transport, the nbm_tools forecast parser) become
  fields of an explicit environment record `Env`.
* The in-memory SQLite table of src/site_validation.rs becomes a `List SiteInfo`
  in rowid (insertion) order; the SQL operators are embedded with their SQLite
  semantics: `=` on TEXT columns compares bytes (BINARY collation), `LIKE` is
  the ASCII-case-insensitive wildcard matcher `like_match`.  The embedding of
  the interpolated SQL literals is faithful for query strings that do not
  contain a single-quote character (no injection).
* `f32`/`f64` coordinate values never influence control flow in the verified
  components; only the success of `str::parse::<f64>` matters, which is
  embedded as the recogniser `parses_f64` of Rust's float grammar.  `SiteInfo`
  carries the source text of the coordinate fields.
-/

namespace Nbmarch

/-! ## Calendar and time: embedding of the chrono values used by the source -/

/-- Embedding of `chrono::NaiveDateTime` as its calendar components. -/
structure NaiveDateTime where
  year : Int
  month : Nat
  day : Nat
  hour : Nat
  minute : Nat
  second : Nat
deriving DecidableEq

/-- Proleptic Gregorian leap-year rule (as used by chrono). -/
def isLeap (y : Int) : Bool :=
  (y % 4 == 0 && !(y % 100 == 0)) || y % 400 == 0

/-- Number of days in a month of the proleptic Gregorian calendar.
Months outside 1..12 never occur on valid datetimes. -/
def days_in_month (y : Int) (m : Nat) : Nat :=
  if m = 2 then (if isLeap y then 29 else 28)
  else if m = 4 ∨ m = 6 ∨ m = 9 ∨ m = 11 then 30
  else 31

/-- The invariant maintained by every `chrono::NaiveDateTime`. -/
def NaiveDateTime.isValid (t : NaiveDateTime) : Bool :=
  1 ≤ t.month && t.month ≤ 12 && 1 ≤ t.day && t.day ≤ days_in_month t.year t.month
    && t.hour ≤ 23 && t.minute ≤ 59 && t.second ≤ 59

/-- The calendar day before `(y, m, d)`. -/
def prev_day (y : Int) (m d : Nat) : Int × Nat × Nat :=
  if 2 ≤ d then (y, m, d - 1)
  else if 2 ≤ m then (y, m - 1, days_in_month y (m - 1))
  else (y - 1, 12, 31)

/-- Mixed-radix linearisation of the components.  On valid datetimes it is
order-isomorphic to chronological order, so `chrono`'s `Ord` is embedded as
comparison of `lin`. -/
def NaiveDateTime.lin (t : NaiveDateTime) : Int :=
  ((((t.year * 12 + (t.month : Int)) * 32 + (t.day : Int)) * 24 + (t.hour : Int)) * 60
      + (t.minute : Int)) * 60 + (t.second : Int)

/-- Chronological order on embedded datetimes. -/
def NaiveDateTime.le (a b : NaiveDateTime) : Prop := a.lin ≤ b.lin

/-- Strict chronological order on embedded datetimes. -/
def NaiveDateTime.lt (a b : NaiveDateTime) : Prop := a.lin < b.lin

instance (a b : NaiveDateTime) : Decidable (NaiveDateTime.le a b) :=
  inferInstanceAs (Decidable (a.lin ≤ b.lin))

instance (a b : NaiveDateTime) : Decidable (NaiveDateTime.lt a b) :=
  inferInstanceAs (Decidable (a.lin < b.lin))

/-- Move one hour back in the proleptic Gregorian calendar. -/
def subOneHour (t : NaiveDateTime) : NaiveDateTime :=
  if 1 ≤ t.hour then { t with hour := t.hour - 1 }
  else
    let p := prev_day t.year t.month t.day
    { year := p.1, month := p.2.1, day := p.2.2, hour := 23,
      minute := t.minute, second := t.second }

/-- `t - chrono::Duration::hours(k)` for the nonnegative hour counts used by
the source, realised as `k` single-hour backward steps. -/
def subHours : Nat → NaiveDateTime → NaiveDateTime
  | 0, t => t
  | k + 1, t => subHours k (subOneHour t)

/-- Embedding of `calculate_next_most_recent_nmb_initialization_time`
(src/nbm_store.rs).  The source rebuilds the date with `and_hms(hour, 0, 0)`
(discarding minutes and seconds) and subtracts the hour delta selected by the
match on the request hour.  Pure and total, like the source. -/
def calculate_next_most_recent_nmb_initialization_time
    (requested_time : NaiveDateTime) : NaiveDateTime :=
  let year := requested_time.year
  let month := requested_time.month
  let day := requested_time.day
  let hour := requested_time.hour
  let delta : Nat :=
    if 19 ≤ hour then hour - 19
    else if 13 ≤ hour then hour - 13
    else if 7 ≤ hour then hour - 7
    else if 1 ≤ hour then hour - 1
    else 24 - 19
  subHours delta
    { year := year, month := month, day := day, hour := hour, minute := 0, second := 0 }

/-! ## String utilities: SQLite LIKE, Rust float parsing, decimal formatting -/

/-- ASCII lower-casing, the folding SQLite's `LIKE` applies. -/
def ascii_lower (c : Char) : Char :=
  if 'A' ≤ c ∧ c ≤ 'Z' then Char.ofNat (c.toNat + 32) else c

/-- Lower-case a character list. -/
def lower_list (l : List Char) : List Char := l.map ascii_lower

/-- SQLite `LIKE` pattern matching: `%` matches any (possibly empty) sequence,
`_` matches any single character, anything else matches ASCII
case-insensitively.  Structural on the pattern, so it evaluates in the
kernel. -/
def like_match : List Char → List Char → Bool
  | [], t => t.isEmpty
  | '%' :: ps, t => (t.tails).any (fun s => like_match ps s)
  | _ :: _, [] => false
  | q :: ps, c :: ts => (q = '_' || ascii_lower q = ascii_lower c) && like_match ps ts

/-- SQLite `LIKE` on strings (pattern first). -/
def sql_like (pattern text : String) : Bool := like_match pattern.data text.data

/-- Split a character list at every occurrence of `sep` (occurrences deleted). -/
def split_on_char (sep : Char) : List Char → List (List Char)
  | [] => [[]]
  | c :: rest =>
    let r := split_on_char sep rest
    if c = sep then [] :: r
    else
      match r with
      | [] => [[c]]
      | h :: t => (c :: h) :: t

/-- Nonempty all-digit character list. -/
def all_digits (l : List Char) : Bool := !l.isEmpty && l.all (fun c => '0' ≤ c && c ≤ '9')

/-- Mantissa of Rust's float grammar: digits, optionally with one decimal
point, with at least one digit overall. -/
def mantissa_ok (l : List Char) : Bool :=
  match split_on_char '.' l with
  | [a] => all_digits a
  | [a, b] =>
    a.all (fun c => '0' ≤ c && c ≤ '9') && b.all (fun c => '0' ≤ c && c ≤ '9')
      && (!a.isEmpty || !b.isEmpty)
  | _ => false

/-- Exponent of Rust's float grammar: optional sign then digits. -/
def exponent_ok (l : List Char) : Bool :=
  match l with
  | c :: rest => if c = '+' ∨ c = '-' then all_digits rest else all_digits l
  | [] => false

/-- Recogniser for `str::parse::<f64>` success (Rust's `FromStr` grammar for
floats): optional sign, then `inf`, `infinity`, `nan` (any case) or a decimal
number with optional exponent. -/
def parses_f64 (s : String) : Bool :=
  let cs := lower_list s.data
  let body :=
    match cs with
    | c :: rest => if c = '+' ∨ c = '-' then rest else cs
    | [] => []
  body = "inf".data || body = "infinity".data || body = "nan".data ||
    (match split_on_char 'e' body with
     | [m] => mantissa_ok m
     | [m, e] => mantissa_ok m && exponent_ok e
     | _ => false)

/-- Decimal digits of `n`, most significant first, via a fuel-driven loop that
the kernel can evaluate. -/
def dec_go : Nat → Nat → List Char → List Char
  | 0, _, acc => acc
  | fuel + 1, n, acc =>
    let d := Char.ofNat (48 + n % 10)
    if n < 10 then d :: acc else dec_go fuel (n / 10) (d :: acc)

/-- Decimal representation of a natural number (Rust `Display` for integers). -/
def dec_digits (n : Nat) : List Char := dec_go (n + 1) n []

/-- Rust `format!` width padding: right-align `n`'s decimal digits in a field
of width `w` filled with `fill` (`{:0w}` uses `'0'`, `{:w}` uses a space). -/
def fmt_pad (fill : Char) (w : Nat) (n : Nat) : String :=
  let s := dec_digits n
  if s.length < w then String.mk (List.replicate (w - s.length) fill ++ s)
  else String.mk s

/-- ASCII whitespace, the fragment of Rust's `char::is_whitespace` that can
occur in this archive's CSV fields. -/
def is_ws (c : Char) : Bool :=
  c = ' ' || c = '\t' || c = '\n' || c = '\r' || c.toNat = 11 || c.toNat = 12

/-- `str::trim`: drop leading and trailing whitespace. -/
def trim_ws (s : String) : String :=
  String.mk (((s.data.dropWhile is_ws).reverse.dropWhile is_ws).reverse)

/-! ## Site validation (src/site_validation.rs) -/

/-- Embedding of `SiteInfo`.  `latitude`/`longitude` are `f32` in the source;
their numeric value never influences control flow in the verified components,
so the embedding carries the source text of the coordinate fields (a row only
enters the table when `parses_f64` accepts both). -/
structure SiteInfo where
  id : String
  name : String
  state_prov : String
  latitude : String
  longitude : String
deriving DecidableEq

/-- Embedding of `SiteValidation`. -/
structure SiteValidation where
  site : SiteInfo
  initialization_time : NaiveDateTime
deriving DecidableEq

/-- `SiteValidation::file_name`. -/
def SiteValidation.file_name (v : SiteValidation) : String := v.site.id ++ ".csv"

/-- Embedding of `crate::error::Error` (src/error.rs).  Payloads of the
wrapped foreign error types (`filedb::Error`, boxed errors, `nbm_tools::Error`)
are abstracted to tags.  The source names `AmbiguousSite`'s field `matches`,
which is a reserved word in Lean, hence `ms`. -/
inductive Error where
  | General (msg : String)
  | LocalStore (err : Nat)
  | Internal (err : Nat)
  | NBMData (err : Nat)
  | InitializationTimeNotAvailable (t : NaiveDateTime)
  | NoMatch (requested_site : String)
  | AmbiguousSite (ms : List SiteInfo)
deriving DecidableEq

/-- One row of the in-memory SQLite `locations` table, in rowid order.  The
table's `PRIMARY KEY (id) ON CONFLICT IGNORE` makes `insert_row` drop a row
whose `id` is already present (SQLite TEXT equality is byte equality). -/
def insert_row (db : List SiteInfo) (row : SiteInfo) : List SiteInfo :=
  if db.any (fun r => r.id == row.id) then db else db ++ [row]

/-- Per-record body of the insertion loop of `build_locations_database`:
fetch fields 0..4, silently skip the record when the latitude or longitude
does not parse as a float, trim `id`/`name`/`state`. -/
def row_site (rec : List String) : Option SiteInfo :=
  match rec.get? 0, rec.get? 1, rec.get? 2, rec.get? 3, rec.get? 4 with
  | some id, some name, some state_prov, some lat_str, some lon_str =>
    if parses_f64 lat_str then
      if parses_f64 lon_str then
        some { id := trim_ws id, name := trim_ws name, state_prov := trim_ws state_prov,
               latitude := lat_str, longitude := lon_str }
      else none
    else none
  | _, _, _, _, _ => none

/-- Insertion loop over the data records.  The `csv` crate (default
configuration) yields an error for any record whose field count differs from
the first record's, and `filter_map(res.ok())` silently drops those, which the
length guard embeds. -/
def insert_records (hlen : Nat) (db : List SiteInfo) : List (List String) → List SiteInfo
  | [] => db
  | rec :: rest =>
    if rec.length == hlen then
      match row_site rec with
      | some s => insert_records hlen (insert_row db s) rest
      | none => insert_records hlen db rest
    else insert_records hlen db rest

/-- Embedding of `build_locations_database` (src/site_validation.rs).  The
`csv::Reader` used by the source has `has_headers` enabled (the default), so
the first record is consumed as a header and only the remaining records are
iterated.  Input is the record list produced by the CSV reader. -/
def build_locations_database (records : List (List String)) : List SiteInfo :=
  match records with
  | [] => []
  | header :: data => insert_records header.length [] data

/-- Embedding of `find_exact_case_insensitive_match` (src/site_validation.rs).
Despite its name, the SQL it runs is `WHERE id = '<site>'`, and SQLite compares
TEXT with the BINARY collation, so the match is case-SENSITIVE byte equality;
`query_row` returns the first matching row. -/
def find_exact_case_insensitive_match (db : List SiteInfo) (site : String) :
    Option SiteInfo :=
  db.find? (fun r => r.id == site)

/-- Embedding of `find_similar_sites` (src/site_validation.rs): SQL
`id LIKE '%<site>%' OR name LIKE '%<site>%' OR state LIKE '<site>'`, rows in
table order. -/
def find_similar_sites (db : List SiteInfo) (site : String) : List SiteInfo :=
  db.filter (fun r =>
    sql_like ("%" ++ site ++ "%") r.id || sql_like ("%" ++ site ++ "%") r.name
      || sql_like site r.state_prov)

/-- The matching stage of `validate` (src/site_validation.rs) run against an
already-built locations table: exact stage first, then the fuzzy stage with
the empty / unique / ambiguous trichotomy. -/
def validate_db (site : String) (db : List SiteInfo) : Except Error SiteInfo :=
  match find_exact_case_insensitive_match db site with
  | some site_info => .ok site_info
  | none =>
    match find_similar_sites db site with
    | [] => .error (.NoMatch site)
    | [m] => .ok m
    | ms => .error (.AmbiguousSite ms)

/-- CSV reading restricted to the unquoted records this archive publishes:
split into lines (tolerating CRLF), drop empty lines, split fields at commas.
Quoted fields are outside the embedding's domain; no claim exercises them. -/
def csv_records (s : String) : List (List String) :=
  ((split_on_char '\n' s.data).map
      (fun line =>
        match line.reverse with
        | c :: rest => if c = '\r' then rest.reverse else line
        | [] => line)).filter (fun line => !line.isEmpty)
    |>.map (fun line => (split_on_char ',' line).map String.mk)

/-- Embedding of `validate` (src/site_validation.rs): build the locations
table from the CSV text, then run the two matching stages. -/
def validate (site : String) (locations_str : String) : Except Error SiteInfo :=
  validate_db site (build_locations_database (csv_records locations_str))

instance {ε α : Type} [DecidableEq ε] [DecidableEq α] : DecidableEq (Except ε α) :=
  fun x y =>
    match x, y with
    | .ok a, .ok b =>
      if h : a = b then isTrue (by rw [h]) else isFalse (by intro hh; cases hh; exact h rfl)
    | .error a, .error b =>
      if h : a = b then isTrue (by rw [h]) else isFalse (by intro hh; cases hh; exact h rfl)
    | .ok _, .error _ => isFalse (by intro hh; cases hh)
    | .error _, .ok _ => isFalse (by intro hh; cases hh)

/-! ## Downloader (src/download.rs) -/

/-- `BASE_URL` of src/download.rs. -/
def BASE_URL : String := "https://hwp-viz.gsd.esrl.noaa.gov/wave1d/data/archive/"

/-- The hard-coded schema cutover instant `nbm_4_starts`. -/
def nbm_4_starts : NaiveDateTime :=
  { year := 2020, month := 9, day := 23, hour := 0, minute := 0, second := 0 }

/-- `format_file_name_for_download`: replace every space with `%20`. -/
def format_file_name_for_download (fname : String) : String :=
  String.mk (fname.data.flatMap (fun c => if c = ' ' then "%20".data else [c]))

/-- Embedding of `build_download_url` (src/download.rs).  Note the source's
format strings: the NBM4.0 branch pads the year with `{:04}` (zeros) while the
legacy NBM branch pads it with `{:4}` (spaces); month, day and hour use
`{:02}` in both.  Negative years never arise for this archive and are outside
the embedding's domain (`Int.toNat`). -/
def build_download_url (fname : String) (init_time : NaiveDateTime) : String :=
  let year := init_time.year
  let month := init_time.month
  let day := init_time.day
  let hour := init_time.hour
  let url_fname := format_file_name_for_download fname
  if NaiveDateTime.lt nbm_4_starts init_time then
    BASE_URL ++ fmt_pad '0' 4 year.toNat ++ "/" ++ fmt_pad '0' 2 month ++ "/"
      ++ fmt_pad '0' 2 day ++ "/NBM4.0/" ++ fmt_pad '0' 2 hour ++ "/" ++ url_fname
  else
    BASE_URL ++ fmt_pad ' ' 4 year.toNat ++ "/" ++ fmt_pad '0' 2 month ++ "/"
      ++ fmt_pad '0' 2 day ++ "/NBM/" ++ fmt_pad '0' 2 hour ++ "/" ++ url_fname

/-! ## Store orchestrator (src/nbm_store.rs) -/

/-- Abstraction of `Vec<u8>` payloads returned by the cache: either a valid
UTF-8 encoding of a string or invalid bytes. -/
inductive Bytes where
  | utf8 (s : String)
  | invalid (tag : Nat)
deriving DecidableEq

/-- `String::from_utf8`, with the failure routed through
`From<FromUtf8Error> for Error` (an `Internal` error). -/
def from_utf8 : Bytes → Except Error String
  | .utf8 s => .ok s
  | .invalid tag => .error (.Internal tag)

/-- Abstraction of `nbm_tools::NBMData`, the external forecast parser's
output; its content is opaque to this crate. -/
structure NBMData where
  tag : Nat
deriving DecidableEq

/-- The external collaborators of `NBMStore`, as read/write oracles:
`retrieve_file`/`add_file` are the filedb cache handle (errors abstracted to
tags), `download` is `crate::download::download_file` (whose errors are
already `crate::Error` values), `nbm_from_str` is `nbm_tools::NBMData::from_str`
(errors abstracted to tags, wrapped into `Error.NBMData` by the store).
The cache is modelled as an oracle rather than mutable state: within a single
store call, and across the attempts of `validate_most_recent_available` (whose
looping attempts never write, since a successful download exits the loop), the
source never reads back a key it wrote. -/
structure Env where
  retrieve_file : String → NaiveDateTime → Except Nat (Option Bytes)
  add_file : String → NaiveDateTime → String → Except Nat Unit
  download : String → NaiveDateTime → Except Error String
  nbm_from_str : String → Except Nat NBMData

/-- The download arm of the locations fetch in `validate_request`
(src/nbm_store.rs lines 53-61): on download success the cache write's result
is bound to `_err` and discarded; on download failure the locations text is
`None`. -/
def locations_after_download (env : Env) (init_time : NaiveDateTime) : Option String :=
  match env.download "locations.csv" init_time with
  | .ok str_data =>
    let _err := env.add_file "locations.csv" init_time str_data
    some str_data
  | .error _ => none

/-- Tail of `validate_request`: run site validation and pair the resolved site
with the initialization time. -/
def finish_validate (site : String) (init_time : NaiveDateTime)
    (locations_str : String) : Except Error SiteValidation :=
  (validate site locations_str).map (fun site_info => SiteValidation.mk site_info init_time)

/-- Embedding of `NBMStore::validate_request` (src/nbm_store.rs lines 41-69).
A cache-read error propagates through `?` as a `LocalStore` error; a cache hit
is decoded (`?` on UTF-8 failure); a cache miss falls to the downloader; if no
text was obtained the result is `InitializationTimeNotAvailable(init_time)`. -/
def validate_request (env : Env) (site : String) (request_time : NaiveDateTime) :
    Except Error SiteValidation :=
  match env.retrieve_file "locations.csv"
      (calculate_next_most_recent_nmb_initialization_time request_time) with
  | .error e => .error (.LocalStore e)
  | .ok (some bytes) =>
    match from_utf8 bytes with
    | .error e => .error e
    | .ok locations_str =>
      finish_validate site (calculate_next_most_recent_nmb_initialization_time request_time)
        locations_str
  | .ok none =>
    match locations_after_download env
        (calculate_next_most_recent_nmb_initialization_time request_time) with
    | some locations_str =>
      finish_validate site (calculate_next_most_recent_nmb_initialization_time request_time)
        locations_str
    | none =>
      .error (.InitializationTimeNotAvailable
        (calculate_next_most_recent_nmb_initialization_time request_time))

/-- The retry loop of `validate_most_recent_available`, indexed by the
attempts left (the source's `attempts_left`, initially 20).  An attempt whose
failure is `InitializationTimeNotAvailable(it)` retries at `it - 1 hour` while
more than one attempt is left; any other outcome returns immediately; when the
counter is exhausted the last failure is returned verbatim.  Fuel 0 never
arises from the public entry point. -/
def validate_most_recent_available_go (env : Env) (site : String) :
    Nat → NaiveDateTime → Except Error SiteValidation
  | 0, t => validate_request env site t
  | n + 1, t =>
    match validate_request env site t with
    | .error (.InitializationTimeNotAvailable it) =>
      if n = 0 then .error (.InitializationTimeNotAvailable it)
      else validate_most_recent_available_go env site n (subHours 1 it)
    | v => v

/-- Embedding of `NBMStore::validate_most_recent_available`
(src/nbm_store.rs lines 81-104): the retry loop capped at 20 attempts. -/
def validate_most_recent_available (env : Env) (site : String)
    (request_time : NaiveDateTime) : Except Error SiteValidation :=
  validate_most_recent_available_go env site 20 request_time

/-- Embedding of `NBMStore::retrieve` (src/nbm_store.rs lines 107-136).
Unlike the locations fetch, the cache write's result here goes through `?`
(a write failure propagates as a `LocalStore` error), a download failure is
returned as-is (`err @ Err(_) => err`), and the decoded text is passed to the
external `nbm_tools` parser whose failures become `NBMData` errors. -/
def retrieve (env : Env) (validation : SiteValidation) : Except Error NBMData :=
  match env.retrieve_file validation.file_name validation.initialization_time with
  | .error e => .error (.LocalStore e)
  | .ok (some bytes) =>
    match from_utf8 bytes with
    | .error e => .error e
    | .ok text =>
      match env.nbm_from_str text with
      | .ok d => .ok d
      | .error e => .error (.NBMData e)
  | .ok none =>
    match env.download validation.file_name validation.initialization_time with
    | .ok text =>
      match env.add_file validation.file_name validation.initialization_time text with
      | .error e => .error (.LocalStore e)
      | .ok _ =>
        match env.nbm_from_str text with
        | .ok d => .ok d
        | .error e => .error (.NBMData e)
    | .error e => .error e

/-! ## Calendar lemmas -/

theorem days_in_month_le (y : Int) (m : Nat) : days_in_month y m ≤ 31 := by
  unfold days_in_month
  split
  · split <;> omega
  · split <;> omega

theorem days_in_month_pos (y : Int) (m : Nat) : 1 ≤ days_in_month y m := by
  unfold days_in_month
  split
  · split <;> omega
  · split <;> omega

theorem isValid_iff (t : NaiveDateTime) : t.isValid = true ↔
    1 ≤ t.month ∧ t.month ≤ 12 ∧ 1 ≤ t.day ∧ t.day ≤ days_in_month t.year t.month
      ∧ t.hour ≤ 23 ∧ t.minute ≤ 59 ∧ t.second ≤ 59 := by
  unfold NaiveDateTime.isValid
  simp [Bool.and_eq_true, and_assoc]

theorem subHours_hour_sub (k : Nat) (t : NaiveDateTime) (h : k ≤ t.hour) :
    subHours k t = { t with hour := t.hour - k } := by
  induction k generalizing t with
  | zero => simp [subHours]
  | succ k ih =>
    have h1 : 1 ≤ t.hour := by omega
    have hstep : subOneHour t = { t with hour := t.hour - 1 } := by
      simp [subOneHour, h1]
    rw [subHours, hstep, ih { t with hour := t.hour - 1 } (by simp; omega)]
    simp
    omega

theorem subHours_minute_second (k : Nat) (t : NaiveDateTime) :
    (subHours k t).minute = t.minute ∧ (subHours k t).second = t.second := by
  induction k generalizing t with
  | zero => simp [subHours]
  | succ k ih =>
    rw [subHours]
    rcases ih (subOneHour t) with ⟨h1, h2⟩
    refine ⟨h1.trans ?_, h2.trans ?_⟩ <;>
      · unfold subOneHour
        split <;> simp

theorem prev_day_bounds (y : Int) (m d : Nat) (hm1 : 1 ≤ m) (hm2 : m ≤ 12)
    (hd1 : 1 ≤ d) (hd2 : d ≤ days_in_month y m) :
    1 ≤ (prev_day y m d).2.1 ∧ (prev_day y m d).2.1 ≤ 12 ∧ 1 ≤ (prev_day y m d).2.2
      ∧ (prev_day y m d).2.2 ≤ days_in_month (prev_day y m d).1 (prev_day y m d).2.1 := by
  unfold prev_day
  split
  · simp only
    omega
  · split
    · simp only
      refine ⟨by omega, by omega, days_in_month_pos _ _, le_refl _⟩
    · simp only
      have h12 : days_in_month (y - 1) 12 = 31 := rfl
      omega

theorem subOneHour_isValid (t : NaiveDateTime) (h : t.isValid = true) :
    (subOneHour t).isValid = true := by
  rw [isValid_iff] at h
  obtain ⟨hm1, hm2, hd1, hd2, hh, hmi, hs⟩ := h
  unfold subOneHour
  split
  · rw [isValid_iff]
    exact ⟨hm1, hm2, hd1, hd2, by show t.hour - 1 ≤ 23; omega, hmi, hs⟩
  · have hb := prev_day_bounds t.year t.month t.day hm1 hm2 hd1 hd2
    rw [isValid_iff]
    exact ⟨hb.1, hb.2.1, hb.2.2.1, hb.2.2.2, by show 23 ≤ 23; omega, hmi, hs⟩

theorem lin_subOneHour_lt (t : NaiveDateTime) (h : t.isValid = true) :
    (subOneHour t).lin < t.lin := by
  rw [isValid_iff] at h
  obtain ⟨hm1, hm2, hd1, hd2, hh, hmi, hs⟩ := h
  have hdim := days_in_month_le t.year t.month
  unfold subOneHour
  split
  · simp only [NaiveDateTime.lin]
    omega
  · unfold prev_day
    split
    · simp only [NaiveDateTime.lin]
      omega
    · split
      · have hdim2 := days_in_month_le t.year (t.month - 1)
        simp only [NaiveDateTime.lin]
        omega
      · have h31 : days_in_month (t.year - 1) 12 = 31 := rfl
        simp only [NaiveDateTime.lin]
        omega

theorem subHours_isValid_le (k : Nat) (t : NaiveDateTime) (h : t.isValid = true) :
    (subHours k t).isValid = true ∧ (subHours k t).lin ≤ t.lin := by
  induction k generalizing t with
  | zero => exact ⟨h, le_refl _⟩
  | succ k ih =>
    rw [subHours]
    rcases ih (subOneHour t) (subOneHour_isValid t h) with ⟨h1, h2⟩
    exact ⟨h1, h2.trans (le_of_lt (lin_subOneHour_lt t h))⟩

theorem calc_eq_pos (t : NaiveDateTime) (h1 : 1 ≤ t.hour) :
    calculate_next_most_recent_nmb_initialization_time t =
      { year := t.year, month := t.month, day := t.day,
        hour := if 19 ≤ t.hour then 19 else if 13 ≤ t.hour then 13
                else if 7 ≤ t.hour then 7 else 1,
        minute := 0, second := 0 } := by
  show subHours
      (if 19 ≤ t.hour then t.hour - 19
       else if 13 ≤ t.hour then t.hour - 13
       else if 7 ≤ t.hour then t.hour - 7
       else if 1 ≤ t.hour then t.hour - 1 else 24 - 19)
      { year := t.year, month := t.month, day := t.day, hour := t.hour,
        minute := 0, second := 0 } = _
  by_cases h19 : 19 ≤ t.hour
  · rw [if_pos h19, subHours_hour_sub _ _ (by show t.hour - 19 ≤ t.hour; omega), if_pos h19]
    simp only [NaiveDateTime.mk.injEq, true_and, and_true]
    omega
  · rw [if_neg h19, if_neg h19]
    by_cases h13 : 13 ≤ t.hour
    · rw [if_pos h13, subHours_hour_sub _ _ (by show t.hour - 13 ≤ t.hour; omega), if_pos h13]
      simp only [NaiveDateTime.mk.injEq, true_and, and_true]
      omega
    · rw [if_neg h13, if_neg h13]
      by_cases h7 : 7 ≤ t.hour
      · rw [if_pos h7, subHours_hour_sub _ _ (by show t.hour - 7 ≤ t.hour; omega), if_pos h7]
        simp only [NaiveDateTime.mk.injEq, true_and, and_true]
        omega
      · rw [if_neg h7, if_neg h7, if_pos h1,
          subHours_hour_sub _ _ (by show t.hour - 1 ≤ t.hour; omega)]
        simp only [NaiveDateTime.mk.injEq, true_and, and_true]
        omega

theorem calc_eq_zero (t : NaiveDateTime) (h0 : t.hour = 0) :
    calculate_next_most_recent_nmb_initialization_time t =
      { year := (prev_day t.year t.month t.day).1,
        month := (prev_day t.year t.month t.day).2.1,
        day := (prev_day t.year t.month t.day).2.2,
        hour := 19, minute := 0, second := 0 } := by
  show subHours
      (if 19 ≤ t.hour then t.hour - 19
       else if 13 ≤ t.hour then t.hour - 13
       else if 7 ≤ t.hour then t.hour - 7
       else if 1 ≤ t.hour then t.hour - 1 else 24 - 19)
      { year := t.year, month := t.month, day := t.day, hour := t.hour,
        minute := 0, second := 0 } = _
  rw [if_neg (by omega), if_neg (by omega), if_neg (by omega), if_neg (by omega)]
  have hstep : subHours (24 - 19)
      { year := t.year, month := t.month, day := t.day, hour := t.hour,
        minute := 0, second := 0 } =
      subHours 4 (subOneHour
        { year := t.year, month := t.month, day := t.day, hour := t.hour,
          minute := 0, second := 0 }) := rfl
  rw [hstep]
  have hone : subOneHour
      { year := t.year, month := t.month, day := t.day, hour := t.hour,
        minute := 0, second := 0 } =
      { year := (prev_day t.year t.month t.day).1,
        month := (prev_day t.year t.month t.day).2.1,
        day := (prev_day t.year t.month t.day).2.2,
        hour := 23, minute := 0, second := 0 } := by
    unfold subOneHour
    rw [if_neg (by simp [h0])]
  rw [hone, subHours_hour_sub _ _ (by show 4 ≤ 23; omega)]
  simp [NaiveDateTime.mk.injEq]

theorem slot_if_facts (h : Nat) (h1 : 1 ≤ h) :
    ((if 19 ≤ h then 19 else if 13 ≤ h then 13 else if 7 ≤ h then 7 else 1) = 1
      ∨ (if 19 ≤ h then 19 else if 13 ≤ h then 13 else if 7 ≤ h then 7 else 1) = 7
      ∨ (if 19 ≤ h then 19 else if 13 ≤ h then 13 else if 7 ≤ h then 7 else 1) = 13
      ∨ (if 19 ≤ h then 19 else if 13 ≤ h then 13 else if 7 ≤ h then 7 else 1) = 19)
    ∧ (if 19 ≤ h then 19 else if 13 ≤ h then 13 else if 7 ≤ h then 7 else 1) ≤ h
    ∧ ∀ s : Nat, (s = 1 ∨ s = 7 ∨ s = 13 ∨ s = 19) → s ≤ h →
        s ≤ (if 19 ≤ h then 19 else if 13 ≤ h then 13 else if 7 ≤ h then 7 else 1) := by
  split_ifs <;> exact ⟨by omega, by omega, fun s hs hle => by omega⟩

/-- C1 (functional_correctness): for every request time,
`calculate_next_most_recent_nmb_initialization_time` returns a timestamp whose
hour is in {1, 7, 13, 19} with minute and second 0; for a request hour ≥ 1 the
result stays on the same calendar day and its hour is the greatest schedule
hour ≤ the request hour; for a request hour < 1 the result is hour 19 of the
previous calendar day.  The Lean embedding is a total function, as the source
is pure and total. -/
theorem C1_time_resolver (t : NaiveDateTime) :
    ((calculate_next_most_recent_nmb_initialization_time t).hour = 1
      ∨ (calculate_next_most_recent_nmb_initialization_time t).hour = 7
      ∨ (calculate_next_most_recent_nmb_initialization_time t).hour = 13
      ∨ (calculate_next_most_recent_nmb_initialization_time t).hour = 19)
    ∧ (calculate_next_most_recent_nmb_initialization_time t).minute = 0
    ∧ (calculate_next_most_recent_nmb_initialization_time t).second = 0
    ∧ (1 ≤ t.hour →
        (calculate_next_most_recent_nmb_initialization_time t).year = t.year
        ∧ (calculate_next_most_recent_nmb_initialization_time t).month = t.month
        ∧ (calculate_next_most_recent_nmb_initialization_time t).day = t.day
        ∧ (calculate_next_most_recent_nmb_initialization_time t).hour ≤ t.hour
        ∧ ∀ s : Nat, (s = 1 ∨ s = 7 ∨ s = 13 ∨ s = 19) → s ≤ t.hour →
            s ≤ (calculate_next_most_recent_nmb_initialization_time t).hour)
    ∧ (t.hour < 1 →
        (calculate_next_most_recent_nmb_initialization_time t).year
            = (prev_day t.year t.month t.day).1
        ∧ (calculate_next_most_recent_nmb_initialization_time t).month
            = (prev_day t.year t.month t.day).2.1
        ∧ (calculate_next_most_recent_nmb_initialization_time t).day
            = (prev_day t.year t.month t.day).2.2
        ∧ (calculate_next_most_recent_nmb_initialization_time t).hour = 19) := by
  by_cases h1 : 1 ≤ t.hour
  · obtain ⟨hq1, hq2, hq3⟩ := slot_if_facts t.hour h1
    rw [calc_eq_pos t h1]
    exact ⟨hq1, rfl, rfl, fun _ => ⟨rfl, rfl, rfl, hq2, hq3⟩,
      fun h0 => absurd h0 (by omega)⟩
  · rw [calc_eq_zero t (by omega)]
    exact ⟨Or.inr (Or.inr (Or.inr rfl)), rfl, rfl, fun h => absurd h (by omega),
      fun _ => ⟨rfl, rfl, rfl, rfl⟩⟩

/-- Witness for C1 at the spec's worked example, request time
2021-02-28T15:15:00 (resolving to hour 13 of the same day). -/
theorem C1_time_resolver_witness :
    (calculate_next_most_recent_nmb_initialization_time ⟨2021, 2, 28, 15, 15, 0⟩).year = 2021
    ∧ (calculate_next_most_recent_nmb_initialization_time ⟨2021, 2, 28, 15, 15, 0⟩).month = 2
    ∧ (calculate_next_most_recent_nmb_initialization_time ⟨2021, 2, 28, 15, 15, 0⟩).day = 28
    ∧ (calculate_next_most_recent_nmb_initialization_time ⟨2021, 2, 28, 15, 15, 0⟩).hour ≤ 15 :=
  let h := (C1_time_resolver ⟨2021, 2, 28, 15, 15, 0⟩).2.2.2.1 (by decide)
  ⟨h.1, h.2.1, h.2.2.1, h.2.2.2.1⟩

/-! ## Store lemmas -/

theorem calc_minute_second (t : NaiveDateTime) :
    (calculate_next_most_recent_nmb_initialization_time t).minute = 0
    ∧ (calculate_next_most_recent_nmb_initialization_time t).second = 0 :=
  subHours_minute_second _ _

theorem calc_hour_mem (t : NaiveDateTime) :
    (calculate_next_most_recent_nmb_initialization_time t).hour = 1
    ∨ (calculate_next_most_recent_nmb_initialization_time t).hour = 7
    ∨ (calculate_next_most_recent_nmb_initialization_time t).hour = 13
    ∨ (calculate_next_most_recent_nmb_initialization_time t).hour = 19 := by
  by_cases h1 : 1 ≤ t.hour
  · obtain ⟨hq1, _, _⟩ := slot_if_facts t.hour h1
    rw [calc_eq_pos t h1]
    exact hq1
  · rw [calc_eq_zero t (by omega)]
    exact Or.inr (Or.inr (Or.inr rfl))

theorem calc_isValid_le (t : NaiveDateTime) (h : t.isValid = true) :
    (calculate_next_most_recent_nmb_initialization_time t).isValid = true
    ∧ (calculate_next_most_recent_nmb_initialization_time t).lin ≤ t.lin := by
  obtain ⟨hm1, hm2, hd1, hd2, hh, hmi, hs⟩ := (isValid_iff t).mp h
  have h0 : ({ year := t.year, month := t.month, day := t.day, hour := t.hour,
               minute := 0, second := 0 } : NaiveDateTime).isValid = true := by
    rw [isValid_iff]
    exact ⟨hm1, hm2, hd1, hd2, hh, by show (0 : Nat) ≤ 59; omega, by show (0 : Nat) ≤ 59; omega⟩
  have hle0 : ({ year := t.year, month := t.month, day := t.day, hour := t.hour,
                 minute := 0, second := 0 } : NaiveDateTime).lin ≤ t.lin := by
    show ((((t.year * 12 + (t.month : Int)) * 32 + (t.day : Int)) * 24 + (t.hour : Int)) * 60
        + 0) * 60 + 0 ≤ t.lin
    unfold NaiveDateTime.lin
    omega
  rcases subHours_isValid_le
      (if 19 ≤ t.hour then t.hour - 19
       else if 13 ≤ t.hour then t.hour - 13
       else if 7 ≤ t.hour then t.hour - 7
       else if 1 ≤ t.hour then t.hour - 1 else 24 - 19)
      { year := t.year, month := t.month, day := t.day, hour := t.hour,
        minute := 0, second := 0 } h0 with ⟨hv, hl⟩
  exact ⟨hv, hl.trans hle0⟩

theorem validate_no_itna (site s : String) (it : NaiveDateTime) :
    validate site s ≠ .error (.InitializationTimeNotAvailable it) := by
  unfold validate validate_db
  split
  · simp
  · split <;> simp

theorem finish_validate_ok (site : String) (it : NaiveDateTime) (s : String)
    (v : SiteValidation) (h : finish_validate site it s = .ok v) :
    v.initialization_time = it := by
  unfold finish_validate at h
  cases hv : validate site s with
  | ok info =>
    rw [hv] at h
    simp only [Except.map] at h
    cases h
    rfl
  | error e =>
    rw [hv] at h
    simp only [Except.map] at h
    cases h

theorem finish_validate_ne_itna (site : String) (it it2 : NaiveDateTime) (s : String) :
    finish_validate site it s ≠ .error (.InitializationTimeNotAvailable it2) := by
  intro h
  unfold finish_validate at h
  cases hv : validate site s with
  | ok info =>
    rw [hv] at h
    simp only [Except.map] at h
    cases h
  | error e =>
    rw [hv] at h
    simp only [Except.map] at h
    cases h
    exact validate_no_itna site s it2 hv

theorem validate_request_ok_init (env : Env) (site : String) (t : NaiveDateTime)
    (v : SiteValidation) (h : validate_request env site t = .ok v) :
    v.initialization_time = calculate_next_most_recent_nmb_initialization_time t := by
  unfold validate_request at h
  split at h
  · cases h
  · split at h
    · cases h
    · exact finish_validate_ok _ _ _ _ h
  · split at h
    · exact finish_validate_ok _ _ _ _ h
    · cases h

theorem validate_request_itna (env : Env) (site : String) (t : NaiveDateTime)
    (it : NaiveDateTime)
    (h : validate_request env site t
        = .error (.InitializationTimeNotAvailable it)) :
    it = calculate_next_most_recent_nmb_initialization_time t := by
  unfold validate_request at h
  split at h
  · cases h
  · rename_i bytes hbytes
    split at h
    · rename_i e he
      cases bytes with
      | utf8 s => simp [from_utf8] at he
      | invalid tag =>
        simp [from_utf8] at he
        rw [← he] at h
        cases h
    · exact absurd h (finish_validate_ne_itna _ _ _ _)
  · split at h
    · exact absurd h (finish_validate_ne_itna _ _ _ _)
    · cases h
      rfl

theorem vmra_go_ok (env : Env) (site : String) (n : Nat) (t : NaiveDateTime)
    (v : SiteValidation) (h : validate_request env site t = .ok v) :
    validate_most_recent_available_go env site n t = .ok v := by
  cases n with
  | zero => simpa [validate_most_recent_available_go] using h
  | succ n => simp [validate_most_recent_available_go, h]

theorem vmra_go_error_other (env : Env) (site : String) (n : Nat) (t : NaiveDateTime)
    (e : Error) (h : validate_request env site t = .error e)
    (hne : ∀ it, e ≠ Error.InitializationTimeNotAvailable it) :
    validate_most_recent_available_go env site n t = .error e := by
  cases n with
  | zero => simpa [validate_most_recent_available_go] using h
  | succ n =>
    rcases e with msg | err | err2 | err3 | it | q | ms
    · simp [validate_most_recent_available_go, h]
    · simp [validate_most_recent_available_go, h]
    · simp [validate_most_recent_available_go, h]
    · simp [validate_most_recent_available_go, h]
    · exact absurd rfl (hne it)
    · simp [validate_most_recent_available_go, h]
    · simp [validate_most_recent_available_go, h]

theorem vmra_go_step (env : Env) (site : String) (n : Nat) (t it : NaiveDateTime)
    (h : validate_request env site t = .error (.InitializationTimeNotAvailable it)) :
    validate_most_recent_available_go env site (n + 2) t
      = validate_most_recent_available_go env site (n + 1) (subHours 1 it) := by
  simp [validate_most_recent_available_go, h]

theorem vmra_go_one (env : Env) (site : String) (t : NaiveDateTime) :
    validate_most_recent_available_go env site 1 t = validate_request env site t := by
  cases hv : validate_request env site t with
  | ok v => simp [validate_most_recent_available_go, hv]
  | error e =>
    rcases e with msg | err | err2 | err3 | it | q | ms <;>
      simp [validate_most_recent_available_go, hv]

theorem vmra_go_ok_exists (env : Env) (site : String) :
    ∀ (n : Nat) (t : NaiveDateTime) (v : SiteValidation), t.isValid = true →
      validate_most_recent_available_go env site n t = .ok v →
      ∃ t2, t2.isValid = true ∧ NaiveDateTime.le t2 t
        ∧ v.initialization_time = calculate_next_most_recent_nmb_initialization_time t2 := by
  intro n
  induction n with
  | zero =>
    intro t v hval h
    exact ⟨t, hval, le_refl t.lin, validate_request_ok_init env site t v h⟩
  | succ n ih =>
    intro t v hval h
    cases hv : validate_request env site t with
    | ok w =>
      rw [vmra_go_ok env site (n + 1) t w hv] at h
      cases h
      exact ⟨t, hval, le_refl t.lin, validate_request_ok_init env site t _ hv⟩
    | error e =>
      rcases e with msg | err | err2 | err3 | it | q | ms
      case InitializationTimeNotAvailable =>
        have hit := validate_request_itna env site t it hv
        subst hit
        have hcv := calc_isValid_le t hval
        cases n with
        | zero =>
          rw [vmra_go_one env site t, hv] at h
          cases h
        | succ n2 =>
          rw [vmra_go_step env site n2 t _ hv] at h
          have hsv := subHours_isValid_le 1
            (calculate_next_most_recent_nmb_initialization_time t) hcv.1
          obtain ⟨t2, a, b, c⟩ := ih _ v hsv.1 h
          exact ⟨t2, a, le_trans b (le_trans hsv.2 hcv.2), c⟩
      all_goals
        rw [vmra_go_error_other env site (n + 1) t _ hv (by intro it2 hh; cases hh)] at h
      all_goals cases h

/-- C2 (functional_correctness): `validate_most_recent_available` behaves like
`validate_request`, except that an attempt failing with
`InitializationTimeNotAvailable(it)` retries at request time `it - 1 hour`;
the loop makes at most 20 attempts (the entry point starts the counter at 20
and each retry consumes one), a non-time-availability failure or a success is
returned immediately at any counter value, and with one attempt left the last
attempt's result — in particular its failure — is returned verbatim. -/
theorem C2_most_recent_available_retry (env : Env) (site : String) (t : NaiveDateTime) :
    validate_most_recent_available env site t
      = validate_most_recent_available_go env site 20 t
    ∧ (∀ (n : Nat) (t2 : NaiveDateTime) (v : SiteValidation),
        validate_request env site t2 = .ok v →
        validate_most_recent_available_go env site n t2 = .ok v)
    ∧ (∀ (n : Nat) (t2 : NaiveDateTime) (e : Error),
        validate_request env site t2 = .error e →
        (∀ it, e ≠ Error.InitializationTimeNotAvailable it) →
        validate_most_recent_available_go env site n t2 = .error e)
    ∧ (∀ (n : Nat) (t2 it : NaiveDateTime),
        validate_request env site t2 = .error (.InitializationTimeNotAvailable it) →
        validate_most_recent_available_go env site (n + 2) t2
          = validate_most_recent_available_go env site (n + 1) (subHours 1 it))
    ∧ (∀ t2 : NaiveDateTime,
        validate_most_recent_available_go env site 1 t2 = validate_request env site t2) :=
  ⟨rfl,
   fun n t2 v h => vmra_go_ok env site n t2 v h,
   fun n t2 e h hne => vmra_go_error_other env site n t2 e h hne,
   fun n t2 it h => vmra_go_step env site n t2 it h,
   fun t2 => vmra_go_one env site t2⟩

/-- C9 (invariants): whenever `validate_request` or
`validate_most_recent_available` succeeds on a valid request time, the
returned validation's `initialization_time` is chronologically ≤ the original
request time, its hour is one of the schedule hours {1, 7, 13, 19}, and its
minute and second are 0 (i.e. it is a value the time resolver produces). -/
theorem C9_validation_time_invariant (env : Env) (site : String)
    (t : NaiveDateTime) (v : SiteValidation) (hval : t.isValid = true)
    (h : validate_request env site t = .ok v
      ∨ validate_most_recent_available env site t = .ok v) :
    NaiveDateTime.le v.initialization_time t
    ∧ (v.initialization_time.hour = 1 ∨ v.initialization_time.hour = 7
        ∨ v.initialization_time.hour = 13 ∨ v.initialization_time.hour = 19)
    ∧ v.initialization_time.minute = 0
    ∧ v.initialization_time.second = 0 := by
  have hex : ∃ t2, t2.isValid = true ∧ NaiveDateTime.le t2 t
      ∧ v.initialization_time = calculate_next_most_recent_nmb_initialization_time t2 := by
    rcases h with h | h
    · exact vmra_go_ok_exists env site 0 t v hval h
    · exact vmra_go_ok_exists env site 20 t v hval h
  obtain ⟨t2, hval2, hle2, heq⟩ := hex
  rw [heq]
  exact ⟨le_trans (calc_isValid_le t2 hval2).2 hle2, calc_hour_mem t2,
    (calc_minute_second t2).1, (calc_minute_second t2).2⟩

/-! ## Concrete fixtures for witnesses and counterexamples -/

/-- The spec's worked-example request time, 2021-02-28T15:15:00. -/
def wt0 : NaiveDateTime := ⟨2021, 2, 28, 15, 15, 0⟩

/-- A small locations file: a header line (consumed by the CSV reader) and two
data rows. -/
def locations_text : String :=
  "id,name,state,lat,lon\nKMSO,MISSOULA,MT,46.92,-114.09\nKBTM,BUTTE,MT,45.95,-112.5"

/-- The KMSO row of `locations_text` as parsed. -/
def kmso_site : SiteInfo := ⟨"KMSO", "MISSOULA", "MT", "46.92", "-114.09"⟩

/-- The validation produced for site KMSO at request time `wt0`. -/
def wval : SiteValidation := ⟨kmso_site, ⟨2021, 2, 28, 13, 0, 0⟩⟩

/-- Environment: cache always misses, the locations download succeeds with
`locations_text`, other downloads fail, the forecast parser returns the text
length as its tag. -/
def env_hit : Env :=
  { retrieve_file := fun _ _ => .ok none,
    add_file := fun _ _ _ => .ok (),
    download := fun name _ =>
      if name == "locations.csv" then .ok locations_text else .error (.Internal 1),
    nbm_from_str := fun s => .ok ⟨s.length⟩ }

/-- Environment: cache always misses and every download fails. -/
def env_down : Env := { env_hit with download := fun _ _ => .error (.Internal 0) }

/-- Environment: every cache read fails with error tag 0. -/
def env_cache_err : Env := { env_hit with retrieve_file := fun _ _ => .error 0 }

/-- Environment: cache misses, every download succeeds with "TEXT", but every
cache write fails with error tag 5. -/
def env_write_err : Env :=
  { env_hit with download := fun _ _ => .ok "TEXT", add_file := fun _ _ _ => .error 5 }

/-- Environment: cache misses and every download fails with a transport error
(`Internal 7`, as `From<reqwest::Error>` produces). -/
def env_dl_fail : Env := { env_hit with download := fun _ _ => .error (.Internal 7) }

/-- Environment: cache misses and every download succeeds with "TEXT". -/
def env_parse : Env := { env_hit with download := fun _ _ => .ok "TEXT" }

/-- Witness for C2: with a cache that always misses and a downloader that
always fails, the first attempt at 2021-02-28T15:15:00 fails for the 13:00 run
and the full-fuel loop steps to one hour earlier; with one attempt left the
loop returns the attempt's result verbatim. -/
theorem C2_most_recent_available_retry_witness :
    validate_most_recent_available_go env_down "KMSO" 20 wt0
      = validate_most_recent_available_go env_down "KMSO" 19
          (subHours 1 ⟨2021, 2, 28, 13, 0, 0⟩)
    ∧ validate_most_recent_available_go env_down "KMSO" 1 wt0
      = validate_request env_down "KMSO" wt0 :=
  ⟨(C2_most_recent_available_retry env_down "KMSO" wt0).2.2.2.1 18 wt0
      ⟨2021, 2, 28, 13, 0, 0⟩ (by decide),
   (C2_most_recent_available_retry env_down "KMSO" wt0).2.2.2.2 wt0⟩

/-- Witness for C9 at the spec's worked example. -/
theorem C9_validation_time_invariant_witness :
    NaiveDateTime.le wval.initialization_time wt0
    ∧ (wval.initialization_time.hour = 1 ∨ wval.initialization_time.hour = 7
        ∨ wval.initialization_time.hour = 13 ∨ wval.initialization_time.hour = 19)
    ∧ wval.initialization_time.minute = 0
    ∧ wval.initialization_time.second = 0 :=
  C9_validation_time_invariant env_hit "KMSO" wt0 wval (by decide) (Or.inl (by decide))

/-! ## C6: cache-failure propagation in fetch-or-cache -/

/-- Counterexample to C6 as stated: a cache-read error is NOT treated like a
miss — with a cache whose reads fail (tag 0), `validate_request` returns
`LocalStore 0` to the caller, while the otherwise-identical cache-miss
environment succeeds via download; and in `retrieve` a cache-write failure
after a successful download propagates (`LocalStore 5`) instead of being
ignored. -/
theorem C6_counterexample :
    validate_request env_cache_err "KMSO" wt0 = .error (.LocalStore 0)
    ∧ validate_request env_hit "KMSO" wt0 = .ok wval
    ∧ retrieve env_write_err wval = .error (.LocalStore 5) :=
  ⟨by decide, by decide, by decide⟩

/-- C6 amended (error_handling): cache-read errors propagate to the caller as
`LocalStore` errors in both fetch-or-cache sites (only a cache miss falls
through to download); the cache-write result after a successful download is
discarded in `validate_request` (its outcome cannot influence the result,
which still carries the downloaded text), but in `retrieve` a cache-write
failure propagates as a `LocalStore` error. -/
theorem C6_cache_error_propagation :
    (∀ (env : Env) (site : String) (t : NaiveDateTime) (e : Nat),
        env.retrieve_file "locations.csv"
            (calculate_next_most_recent_nmb_initialization_time t) = .error e →
        validate_request env site t = .error (.LocalStore e))
    ∧ (∀ (env : Env) (v : SiteValidation) (e : Nat),
        env.retrieve_file v.file_name v.initialization_time = .error e →
        retrieve env v = .error (.LocalStore e))
    ∧ (∀ (env env2 : Env) (site : String) (t : NaiveDateTime),
        env.retrieve_file = env2.retrieve_file → env.download = env2.download →
        validate_request env site t = validate_request env2 site t)
    ∧ (∀ (env : Env) (v : SiteValidation) (text : String) (e : Nat),
        env.retrieve_file v.file_name v.initialization_time = .ok none →
        env.download v.file_name v.initialization_time = .ok text →
        env.add_file v.file_name v.initialization_time text = .error e →
        retrieve env v = .error (.LocalStore e)) := by
  refine ⟨?_, ?_, ?_, ?_⟩
  · intro env site t e h
    simp [validate_request, h]
  · intro env v e h
    simp [retrieve, h]
  · intro env env2 site t h1 h2
    simp [validate_request, locations_after_download, h1, h2]
  · intro env v text e h1 h2 h3
    simp [retrieve, h1, h2, h3]

/-- Witness for C6's amended theorem at concrete environments. -/
theorem C6_cache_error_propagation_witness :
    validate_request env_cache_err "KMSO" wt0 = .error (.LocalStore 0)
    ∧ retrieve env_write_err wval = .error (.LocalStore 5) :=
  ⟨C6_cache_error_propagation.1 env_cache_err "KMSO" wt0 0 (by decide),
   C6_cache_error_propagation.2.2.2 env_write_err wval "TEXT" 5
     (by decide) (by decide) (by decide)⟩

/-! ## C7: retrieve -/

/-- Counterexample to C7 as stated: when the cache misses and the download
fails, `retrieve` returns the downloader's transport error unchanged
(`Internal 7`) — the embedded `Error` type (from src/error.rs) has no
`DataNotAvailable` variant at all — and on success it returns the external
parser's `NBMData` value (here tag 4 = length of "TEXT"), not the raw text. -/
theorem C7_counterexample :
    retrieve env_dl_fail wval = .error (.Internal 7)
    ∧ retrieve env_parse wval = .ok ⟨4⟩ :=
  ⟨by decide, by decide⟩

/-- C7 amended (error_handling): `retrieve` computes the file name as the
site id plus ".csv"; on a cache miss with a failed download it returns the
downloader's own error (there is no `DataNotAvailable`); on obtaining text
(fresh or cached) it returns the external `nbm_tools` parser's result, with
parser failures wrapped as `NBMData` errors — the store itself does not
interpret the forecast content. -/
theorem C7_retrieve_behaviour :
    (∀ v : SiteValidation, SiteValidation.file_name v = v.site.id ++ ".csv")
    ∧ (∀ (env : Env) (v : SiteValidation) (e : Error),
        env.retrieve_file v.file_name v.initialization_time = .ok none →
        env.download v.file_name v.initialization_time = .error e →
        retrieve env v = .error e)
    ∧ (∀ (env : Env) (v : SiteValidation) (text : String),
        env.retrieve_file v.file_name v.initialization_time = .ok none →
        env.download v.file_name v.initialization_time = .ok text →
        env.add_file v.file_name v.initialization_time text = .ok () →
        retrieve env v =
          match env.nbm_from_str text with
          | .ok d => .ok d
          | .error e2 => .error (.NBMData e2))
    ∧ (∀ (env : Env) (v : SiteValidation) (s : String),
        env.retrieve_file v.file_name v.initialization_time
            = .ok (some (Bytes.utf8 s)) →
        retrieve env v =
          match env.nbm_from_str s with
          | .ok d => .ok d
          | .error e2 => .error (.NBMData e2)) := by
  refine ⟨fun v => rfl, ?_, ?_, ?_⟩
  · intro env v e h1 h2
    simp [retrieve, h1, h2]
  · intro env v text h1 h2 h3
    simp [retrieve, h1, h2, h3]
  · intro env v s h1
    simp [retrieve, h1, from_utf8]

/-- Witness for C7's amended theorem at concrete environments. -/
theorem C7_retrieve_behaviour_witness :
    retrieve env_dl_fail wval = .error (.Internal 7) :=
  C7_retrieve_behaviour.2.1 env_dl_fail wval (.Internal 7) (by decide) (by decide)

/-! ## C8: download URL -/

theorem dec_go_len1 (fuel : Nat) : ∀ (n : Nat) (acc : List Char), n < fuel →
    acc.length + 1 ≤ (dec_go fuel n acc).length := by
  induction fuel with
  | zero => intro n acc h; omega
  | succ fuel ih =>
    intro n acc h
    rw [dec_go]
    split
    · simp
    · have := ih (n / 10) (Char.ofNat (48 + n % 10) :: acc) (by omega)
      simp at this
      omega

theorem dec_go_len2 (fuel : Nat) : ∀ (n : Nat) (acc : List Char), n < fuel → 10 ≤ n →
    acc.length + 2 ≤ (dec_go fuel n acc).length := by
  induction fuel with
  | zero => intro n acc h _; omega
  | succ fuel ih =>
    intro n acc h h10
    rw [dec_go]
    rw [if_neg (by omega)]
    have := dec_go_len1 fuel (n / 10) (Char.ofNat (48 + n % 10) :: acc) (by omega)
    simp at this
    omega

theorem dec_go_len3 (fuel : Nat) : ∀ (n : Nat) (acc : List Char), n < fuel → 100 ≤ n →
    acc.length + 3 ≤ (dec_go fuel n acc).length := by
  induction fuel with
  | zero => intro n acc h _; omega
  | succ fuel ih =>
    intro n acc h h100
    rw [dec_go]
    rw [if_neg (by omega)]
    have := dec_go_len2 fuel (n / 10) (Char.ofNat (48 + n % 10) :: acc) (by omega) (by omega)
    simp at this
    omega

theorem dec_go_len4 (fuel : Nat) : ∀ (n : Nat) (acc : List Char), n < fuel → 1000 ≤ n →
    acc.length + 4 ≤ (dec_go fuel n acc).length := by
  induction fuel with
  | zero => intro n acc h _; omega
  | succ fuel ih =>
    intro n acc h h1000
    rw [dec_go]
    rw [if_neg (by omega)]
    have := dec_go_len3 fuel (n / 10) (Char.ofNat (48 + n % 10) :: acc) (by omega) (by omega)
    simp at this
    omega

theorem dec_digits_len4 (n : Nat) (h : 1000 ≤ n) : 4 ≤ (dec_digits n).length := by
  have := dec_go_len4 (n + 1) n [] (by omega) h
  simpa [dec_digits] using this

/-- `{:4}` and `{:04}` agree on numbers of at least four digits. -/
theorem fmt_pad_fill_irrelevant (f1 f2 : Char) (n : Nat) (h : 1000 ≤ n) :
    fmt_pad f1 4 n = fmt_pad f2 4 n := by
  have h4 := dec_digits_len4 n h
  unfold fmt_pad
  rw [if_neg (by omega), if_neg (by omega)]

/-- Counterexample to C8 as stated: for an initialization time in year 999 the
legacy branch pads the year with spaces (`{:4}`), so the calendar date is not
zero-padded as `YYYY`. -/
theorem C8_counterexample :
    build_download_url "a b.csv" ⟨999, 5, 5, 7, 0, 0⟩
      = BASE_URL ++ " 999/05/05/NBM/07/a%20b.csv"
    ∧ build_download_url "a b.csv" ⟨999, 5, 5, 7, 0, 0⟩
      ≠ BASE_URL ++ "0999/05/05/NBM/07/a%20b.csv" :=
  ⟨by decide, by decide⟩

/-- C8 amended (functional_correctness): for every file name and every
initialization time with a four-digit year (1000 ≤ year — all smaller years
hit the legacy branch's space padding), the download URL is exactly the base
URL, the zero-padded date `YYYY/MM/DD`, the schema segment — `/NBM4.0/` when
the initialization time is strictly after 2020-09-23T00:00:00 and `/NBM/` at
or before it — the zero-padded hour `HH`, and the file name with every space
replaced by `%20`. -/
theorem C8_download_url (fname : String) (t : NaiveDateTime) (h : 1000 ≤ t.year) :
    build_download_url fname t
      = BASE_URL ++ fmt_pad '0' 4 t.year.toNat ++ "/" ++ fmt_pad '0' 2 t.month ++ "/"
        ++ fmt_pad '0' 2 t.day
        ++ (if NaiveDateTime.lt nbm_4_starts t then "/NBM4.0/" else "/NBM/")
        ++ fmt_pad '0' 2 t.hour ++ "/" ++ format_file_name_for_download fname := by
  unfold build_download_url
  by_cases hc : NaiveDateTime.lt nbm_4_starts t
  · rw [if_pos hc, if_pos hc]
  · rw [if_neg hc, if_neg hc,
      fmt_pad_fill_irrelevant ' ' '0' t.year.toNat (by omega)]

/-- Witness for C8's amended theorem at the spec's worked example. -/
theorem C8_download_url_witness :
    build_download_url "KMSO.csv" ⟨2021, 2, 28, 13, 0, 0⟩
      = BASE_URL ++ fmt_pad '0' 4 (Int.toNat 2021) ++ "/" ++ fmt_pad '0' 2 2 ++ "/"
        ++ fmt_pad '0' 2 28
        ++ (if NaiveDateTime.lt nbm_4_starts ⟨2021, 2, 28, 13, 0, 0⟩
            then "/NBM4.0/" else "/NBM/")
        ++ fmt_pad '0' 2 13 ++ "/" ++ format_file_name_for_download "KMSO.csv" :=
  C8_download_url "KMSO.csv" ⟨2021, 2, 28, 13, 0, 0⟩ (by decide)

/-! ## Site-matching claims: claim-side predicates and LIKE correctness -/

/-- Claim-side: `needle` occurs contiguously inside `hay` (character lists). -/
def is_infix_chars (needle hay : List Char) : Bool :=
  (hay.tails).any (fun s => needle.isPrefixOf s)

/-- Claim-side: `hay` contains `needle` as a case-insensitive substring. -/
def contains_ci (hay needle : String) : Bool :=
  is_infix_chars (lower_list needle.data) (lower_list hay.data)

/-- Claim-side: case-insensitive string equality. -/
def eq_ci (a b : String) : Bool := lower_list a.data == lower_list b.data

/-- Queries inside the embedding's faithful domain for the interpolated SQL:
no LIKE wildcards (`%`, `_`) and no single quote (character 39). -/
def no_like_special (s : String) : Bool :=
  s.data.all (fun c => !(c = '%' || c = '_' || c.toNat = 39))

theorem no_like_special_spec (s : String) (h : no_like_special s = true) :
    ∀ c ∈ s.data, ¬(c = '%') ∧ ¬(c = '_') := by
  intro c hc
  have := (List.all_eq_true.mp h) c hc
  simp at this
  exact this.1

theorem like_match_pct_iff (ps : List Char) (t : List Char) :
    like_match ('%' :: ps) t = true ↔ ∃ s, s <:+ t ∧ like_match ps s = true := by
  simp [like_match, List.any_eq_true, List.mem_tails]

theorem like_match_pct_nil (l : List Char) : like_match ['%'] l = true := by
  rw [like_match_pct_iff]
  exact ⟨[], List.nil_suffix, rfl⟩

theorem like_match_pct_pct (l : List Char) : like_match ['%', '%'] l = true := by
  rw [like_match_pct_iff]
  exact ⟨[], List.nil_suffix, like_match_pct_nil []⟩

theorem like_match_plain : ∀ p : List Char, (∀ c ∈ p, ¬(c = '%') ∧ ¬(c = '_')) →
    ∀ t, (like_match p t = true ↔ lower_list p = lower_list t) := by
  intro p
  induction p with
  | nil => intro _ t; cases t <;> simp [like_match, lower_list]
  | cons q ps ih =>
    intro hp t
    have hq := hp q (by simp)
    have hps : ∀ c ∈ ps, ¬(c = '%') ∧ ¬(c = '_') := fun c hc => hp c (by simp [hc])
    cases t with
    | nil => simp [like_match, hq.1, lower_list]
    | cons c ts =>
      simp [like_match, hq.1, hq.2, lower_list, ih hps ts]

theorem like_match_trailing_pct :
    ∀ p : List Char, (∀ c ∈ p, ¬(c = '%') ∧ ¬(c = '_')) →
    ∀ b, (like_match (p ++ ['%']) b = true ↔ lower_list p <+: lower_list b) := by
  intro p
  induction p with
  | nil =>
    intro _ b
    simp only [List.nil_append, lower_list, List.map_nil]
    constructor
    · intro _
      exact List.nil_prefix
    · intro _
      exact like_match_pct_nil b
  | cons q ps ih =>
    intro hp b
    have hq := hp q (by simp)
    have hps : ∀ c ∈ ps, ¬(c = '%') ∧ ¬(c = '_') := fun c hc => hp c (by simp [hc])
    cases b with
    | nil => simp [like_match, hq.1, lower_list]
    | cons c ts =>
      simp [like_match, hq.1, hq.2, lower_list, ih hps ts, List.cons_prefix_cons]

theorem like_match_infix_iff (s : List Char) (hs : ∀ c ∈ s, ¬(c = '%') ∧ ¬(c = '_'))
    (t : List Char) :
    like_match ('%' :: (s ++ ['%'])) t = true ↔ lower_list s <:+: lower_list t := by
  rw [like_match_pct_iff]
  constructor
  · rintro ⟨b, hb, hmatch⟩
    rw [like_match_trailing_pct s hs b] at hmatch
    exact List.infix_iff_prefix_suffix.mpr ⟨lower_list b, hmatch, hb.map ascii_lower⟩
  · intro hinf
    obtain ⟨u, hu_pre, hu_suf⟩ := List.infix_iff_prefix_suffix.mp hinf
    have hu_mem : u ∈ (lower_list t).tails := (List.mem_tails _ _).mpr hu_suf
    rw [lower_list, List.map_tails] at hu_mem
    obtain ⟨b, hb_mem, hb_eq⟩ := List.mem_map.mp hu_mem
    refine ⟨b, (List.mem_tails _ _).mp hb_mem, ?_⟩
    rw [like_match_trailing_pct s hs b]
    rw [← hb_eq] at hu_pre
    exact hu_pre

theorem is_infix_chars_iff (n h : List Char) : is_infix_chars n h = true ↔ n <:+: h := by
  simp only [is_infix_chars, List.any_eq_true, List.mem_tails]
  constructor
  · rintro ⟨u, hu_suf, hu_pre⟩
    exact List.infix_iff_prefix_suffix.mpr
      ⟨u, List.isPrefixOf_iff_prefix.mp hu_pre, hu_suf⟩
  · intro hinf
    obtain ⟨u, hu_pre, hu_suf⟩ := List.infix_iff_prefix_suffix.mp hinf
    exact ⟨u, hu_suf, List.isPrefixOf_iff_prefix.mpr hu_pre⟩

theorem string_data_append (a b : String) : (a ++ b).data = a.data ++ b.data := rfl

theorem sql_like_contains (q x : String) (hq : ∀ c ∈ q.data, ¬(c = '%') ∧ ¬(c = '_')) :
    sql_like ("%" ++ q ++ "%") x = contains_ci x q := by
  have hdata : ("%" ++ q ++ "%").data = '%' :: (q.data ++ ['%']) := by
    rw [string_data_append, string_data_append]
    rfl
  rw [sql_like, hdata]
  have h1 := (like_match_infix_iff q.data hq x.data).trans
    (is_infix_chars_iff (lower_list q.data) (lower_list x.data)).symm
  rw [Bool.eq_iff_iff]
  exact h1

theorem sql_like_eq_ci (q x : String) (hq : ∀ c ∈ q.data, ¬(c = '%') ∧ ¬(c = '_')) :
    sql_like q x = eq_ci x q := by
  have h1 := like_match_plain q.data hq x.data
  rw [Bool.eq_iff_iff, sql_like]
  simp only [eq_ci, beq_iff_eq]
  exact h1.trans ⟨fun a => a.symm, fun a => a.symm⟩

theorem find_similar_sites_eq (db : List SiteInfo) (q : String)
    (hq : ∀ c ∈ q.data, ¬(c = '%') ∧ ¬(c = '_')) :
    find_similar_sites db q
      = db.filter (fun r =>
          contains_ci r.id q || contains_ci r.name q || eq_ci r.state_prov q) := by
  apply List.filter_congr
  intro r _
  rw [sql_like_contains q r.id hq, sql_like_contains q r.name hq,
    sql_like_eq_ci q r.state_prov hq]

/-- C4 amended (functional_correctness): for queries containing no SQL LIKE
wildcard (`%`, `_`) and no quote — the `no_like_special` hypothesis — when the
exact stage finds nothing, site resolution collects exactly the rows whose id
or name contains the query as a case-insensitive substring or whose state
equals the query case-insensitively, and returns `NoMatch` on the empty set,
the unique row on a singleton, and `AmbiguousSite` with the candidates in
table order otherwise.  The restriction is forced: the source interpolates the
query into `LIKE` patterns, so a wildcard in the query is interpreted by
`LIKE` rather than literally (see the counterexample, where `"K_SO"` matches
id `"KMSO"` though it is a substring of no field), and a quote breaks the
interpolated SQL. -/
theorem C4_fuzzy_match (db : List SiteInfo) (q : String)
    (hq : no_like_special q = true)
    (hex : find_exact_case_insensitive_match db q = none) :
    validate_db q db =
      match db.filter (fun r =>
          contains_ci r.id q || contains_ci r.name q || eq_ci r.state_prov q) with
      | [] => .error (.NoMatch q)
      | [m] => .ok m
      | ms => .error (.AmbiguousSite ms) := by
  unfold validate_db
  rw [hex, find_similar_sites_eq db q (no_like_special_spec q hq)]

/-- The failing table for C3: the first row's id is "KMSO" and the second
row's name contains "KMSO". -/
def fuzzy_db : List SiteInfo :=
  [kmso_site, ⟨"KXLF", "KMSO VALLEY", "MT", "45.95", "-112.5"⟩]

/-- Counterexample to C4 as stated (over every query): the query "K_SO" is a
case-insensitive substring of no field of the KMSO row, so the claim's
candidate set is empty and the claim requires `NoMatch`; but the source
interpolates the query into a `LIKE` pattern, whose `_` wildcard matches the
"M" of "KMSO", so resolution returns the row. -/
theorem C4_counterexample :
    validate_db "K_SO" [kmso_site] = .ok kmso_site
    ∧ [kmso_site].filter (fun r =>
        contains_ci r.id "K_SO" || contains_ci r.name "K_SO"
          || eq_ci r.state_prov "K_SO") = [] :=
  ⟨by decide, by decide⟩

/-- Witness for C4 at a concrete table and query: "kmso" has no exact match
(SQLite `=` is byte equality) and two fuzzy candidates. -/
theorem C4_fuzzy_match_witness :
    validate_db "kmso" fuzzy_db =
      match fuzzy_db.filter (fun r =>
          contains_ci r.id "kmso" || contains_ci r.name "kmso"
            || eq_ci r.state_prov "kmso") with
      | [] => .error (.NoMatch "kmso")
      | [m] => .ok m
      | ms => .error (.AmbiguousSite ms) :=
  C4_fuzzy_match fuzzy_db "kmso" (by decide) (by decide)

/-- C3 (code_bug evidence): the source's exact stage runs
`WHERE id = '<query>'`, and SQLite compares TEXT with the BINARY collation, so
— despite the function being named `find_exact_case_insensitive_match` — the
match is case-SENSITIVE.  Evaluating the embedded code at the failing input:
query "kmso" against a table whose first row has id "KMSO" and whose second
row's name contains "KMSO" misses the exact stage and returns `AmbiguousSite`
with both rows, where the claim (and the spec's case-insensitivity property)
requires the KMSO row to be returned immediately.  The exact-case query
"KMSO" does return the row immediately. -/
theorem C3_exact_match_case_sensitive :
    validate_db "kmso" fuzzy_db = .error (.AmbiguousSite fuzzy_db)
    ∧ validate_db "KMSO" fuzzy_db = .ok kmso_site
    ∧ find_exact_case_insensitive_match fuzzy_db "kmso" = none :=
  ⟨by decide, by decide, by decide⟩

/-- C10 (error_handling): on a built locations table with at least two rows,
none with an empty id, the empty-string query misses the exact stage, the
fuzzy stage (LIKE with pattern `%%`) matches every row, and the result is
`AmbiguousSite` listing the whole table. -/
theorem C10_empty_query (records : List (List String))
    (h2 : 2 ≤ (build_locations_database records).length)
    (hid : ∀ r ∈ build_locations_database records, r.id ≠ "") :
    find_exact_case_insensitive_match (build_locations_database records) "" = none
    ∧ find_similar_sites (build_locations_database records) ""
        = build_locations_database records
    ∧ validate_db "" (build_locations_database records)
        = .error (.AmbiguousSite (build_locations_database records)) := by
  have hex : find_exact_case_insensitive_match (build_locations_database records) ""
      = none := by
    apply List.find?_eq_none.mpr
    intro r hr
    simp [hid r hr]
  have hsim : find_similar_sites (build_locations_database records) ""
      = build_locations_database records := by
    apply List.filter_eq_self.mpr
    intro r _
    have h1 : sql_like "%%" r.id = true := like_match_pct_pct r.id.data
    simp [h1]
  refine ⟨hex, hsim, ?_⟩
  unfold validate_db
  rw [hex, hsim]
  rcases hdb : build_locations_database records with _ | ⟨a, _ | ⟨b, rest⟩⟩
  · rw [hdb] at h2
    simp at h2
  · rw [hdb] at h2
    simp at h2
  · rfl

/-- Witness for C10 at a concrete locations file (header plus two rows). -/
theorem C10_empty_query_witness :
    find_exact_case_insensitive_match
        (build_locations_database
          [["id", "name", "state", "lat", "lon"],
           ["KMSO", "MISSOULA", "MT", "46.92", "-114.09"],
           ["KBTM", "BUTTE", "MT", "45.95", "-112.5"]]) "" = none
    ∧ find_similar_sites
        (build_locations_database
          [["id", "name", "state", "lat", "lon"],
           ["KMSO", "MISSOULA", "MT", "46.92", "-114.09"],
           ["KBTM", "BUTTE", "MT", "45.95", "-112.5"]]) ""
        = build_locations_database
          [["id", "name", "state", "lat", "lon"],
           ["KMSO", "MISSOULA", "MT", "46.92", "-114.09"],
           ["KBTM", "BUTTE", "MT", "45.95", "-112.5"]]
    ∧ validate_db ""
        (build_locations_database
          [["id", "name", "state", "lat", "lon"],
           ["KMSO", "MISSOULA", "MT", "46.92", "-114.09"],
           ["KBTM", "BUTTE", "MT", "45.95", "-112.5"]])
        = .error (.AmbiguousSite
            (build_locations_database
              [["id", "name", "state", "lat", "lon"],
               ["KMSO", "MISSOULA", "MT", "46.92", "-114.09"],
               ["KBTM", "BUTTE", "MT", "45.95", "-112.5"]])) :=
  C10_empty_query
    [["id", "name", "state", "lat", "lon"],
     ["KMSO", "MISSOULA", "MT", "46.92", "-114.09"],
     ["KBTM", "BUTTE", "MT", "45.95", "-112.5"]]
    (by decide) (by decide)

/-! ## C5: locations-table parsing -/

/-- Counterexample to C5 as stated: a two-row locations file whose rows are
both fully parseable candidate sites yields a one-row table — the CSV reader
consumes the first row as a header, so not every row is a candidate. -/
theorem C5_counterexample :
    build_locations_database
        [["KAAA", "ALPHA", "MT", "1.0", "2.0"], ["KBBB", "BRAVO", "MT", "3.0", "4.0"]]
      = [⟨"KBBB", "BRAVO", "MT", "3.0", "4.0"⟩] := by decide

/-- Claim-side per-row builder: a record needs at least five fields (id, name,
stateProv, latitude, longitude in the first five positions), its coordinates
must both parse as floats (else the row is silently skipped), and the three
text fields are trimmed of surrounding whitespace. -/
def claim_row (rec : List String) : Option SiteInfo :=
  match rec with
  | id :: name :: state_prov :: lat_str :: lon_str :: _ =>
    if parses_f64 lat_str && parses_f64 lon_str then
      some ⟨trim_ws id, trim_ws name, trim_ws state_prov, lat_str, lon_str⟩
    else none
  | _ => none

/-- Claim-side deduplication: keep the first row carrying each id. -/
def dedup_keep_first : List SiteInfo → List SiteInfo
  | [] => []
  | r :: rs => r :: dedup_keep_first (rs.filter (fun x => !(x.id == r.id)))
termination_by l => l.length
decreasing_by
  simp only [List.length_cons]
  exact Nat.lt_succ_of_le (List.length_filter_le _ _)

theorem row_site_eq_claim_row (rec : List String) : row_site rec = claim_row rec := by
  rcases rec with _ | ⟨a, _ | ⟨b, _ | ⟨c, _ | ⟨d, _ | ⟨e, rest⟩⟩⟩⟩⟩
  · rfl
  · rfl
  · rfl
  · rfl
  · rfl
  · cases hd : parses_f64 d <;> cases he : parses_f64 e <;>
      simp [row_site, claim_row, hd, he]

theorem string_beq_comm (a b : String) : (a == b) = (b == a) := by
  by_cases h : a = b
  · rw [h]
  · rw [beq_eq_false_iff_ne.mpr h, beq_eq_false_iff_ne.mpr (fun hh => h hh.symm)]

theorem insert_records_eq (hlen : Nat) :
    ∀ (data : List (List String)) (db : List SiteInfo),
      insert_records hlen db data
        = db ++ dedup_keep_first
            (((data.filter (fun rec => rec.length == hlen)).filterMap row_site).filter
              (fun s => !(db.any (fun r => r.id == s.id)))) := by
  intro data
  induction data with
  | nil =>
    intro db
    simp [insert_records, dedup_keep_first]
  | cons rec rest ih =>
    intro db
    by_cases hl : (rec.length == hlen) = true
    · cases hrs : row_site rec with
      | none =>
        have hstep : insert_records hlen db (rec :: rest) = insert_records hlen db rest := by
          simp [insert_records, hl, hrs]
        rw [hstep, ih db, List.filter_cons, if_pos hl, List.filterMap_cons_none hrs]
      | some s =>
        by_cases hin : (db.any (fun r => r.id == s.id)) = true
        · have hstep : insert_records hlen db (rec :: rest)
              = insert_records hlen db rest := by
            simp [insert_records, hl, hrs, insert_row, hin]
          rw [hstep, ih db, List.filter_cons, if_pos hl,
            List.filterMap_cons_some hrs, List.filter_cons, if_neg (by simp [hin])]
        · have hstep : insert_records hlen db (rec :: rest)
              = insert_records hlen (db ++ [s]) rest := by
            simp [insert_records, hl, hrs, insert_row, hin]
          have hfil : ∀ F : List SiteInfo,
              F.filter (fun x => !((db ++ [s]).any (fun r => r.id == x.id)))
                = (F.filter (fun x => !(db.any (fun r => r.id == x.id)))).filter
                    (fun x => !(x.id == s.id)) := by
            intro F
            rw [List.filter_filter]
            apply List.filter_congr
            intro x _
            rw [List.any_append]
            simp only [List.any_cons, List.any_nil, Bool.or_false]
            rw [string_beq_comm s.id x.id]
            cases db.any (fun r => r.id == x.id) <;> cases x.id == s.id <;> rfl
          rw [hstep, ih (db ++ [s]), List.filter_cons, if_pos hl,
            List.filterMap_cons_some hrs, List.filter_cons, if_pos (by simp [hin]),
            dedup_keep_first, hfil, List.append_assoc, List.singleton_append]
    · have hstep : insert_records hlen db (rec :: rest) = insert_records hlen db rest := by
        simp [insert_records, hl]
      rw [hstep, ih db, List.filter_cons, if_neg hl]

/-- C5 amended (functional_correctness): locations parsing consumes the first
record as a header (so the first row is never a candidate site); each
remaining record must have the same field count as the header and at least
five fields; rows whose latitude or longitude do not parse as floats are
silently skipped; id, name and stateProv are trimmed; duplicate ids keep the
first occurrence.  Equivalently, the built table is the claim-side pipeline
`dedup_keep_first (filter field-count ∘ filterMap claim_row)` applied to the
records after the header, and the empty file yields the empty table. -/
theorem C5_locations_parsing (header : List String) (data : List (List String)) :
    build_locations_database [] = []
    ∧ build_locations_database (header :: data)
      = dedup_keep_first
          ((data.filter (fun rec => rec.length == header.length)).filterMap claim_row) := by
  constructor
  · rfl
  · show insert_records header.length [] data = _
    rw [insert_records_eq header.length data []]
    have hrw : ∀ l : List (List String), l.filterMap row_site = l.filterMap claim_row := by
      intro l
      induction l with
      | nil => rfl
      | cons a l ihl =>
        rw [List.filterMap_cons, List.filterMap_cons, row_site_eq_claim_row, ihl]
    rw [hrw]
    rw [List.nil_append]
    apply congrArg
    apply List.filter_eq_self.mpr
    intro x _
    rfl

end Nbmarch
